import Mathlib

/-!
Verification development for the provider-failover response pipeline of the
Ai-Chat-BoT repository: a shallow embedding of the token estimator
(`utils/tokenCounter.js`), the rate limiter (`services/rateLimiter.js`),
the conversation store (`ConversationManager`), the two provider clients
(`services/groqService.js`, `services/huggingfaceService.js`) and the
response orchestrator (`DiscordAIBot.handleMessage` / `getAIResponse`),
together with proofs and refutations of the specification's claims.

Modelling conventions:
* JavaScript numbers used as timestamps and counters are modelled as `Nat`
  (they stay small and non-negative in the source); the fractional budget
  arithmetic of context trimming (`maxTokensPerRequest * 0.7`,
  `estimateResponseTokens`) is modelled exactly over `ℚ`.
* The in-memory `Map` objects keyed by user id are modelled as total
  functions `String → Option _`, updated pointwise.
* The upstream HTTP calls, the Discord gateway and the prompt-storage
  database are external collaborators; their outcomes enter the model as
  explicit oracle arguments.
* Strings are manipulated as `List Char` where character-level scanning is
  required (the token estimator), and as `String` elsewhere.
-/

namespace AiBot

/-- One conversation turn: `{role, content}` (`ConversationTurn` of the spec). -/
structure Msg where
  role : String
  content : String
deriving DecidableEq

/-- Configuration values read from `config/settings.json` by the sources. -/
structure Config where
  maxContextMessages : Nat
  conversationTimeout : Nat
  userMax : Nat
  userWindowMs : Nat
  groqDaily : Nat
  maxTokensPerRequest : Nat
  systemPrompt : String

/-! ## Token estimator (`utils/tokenCounter.js`) -/

/-- Count the leftmost non-overlapping occurrences of the pattern
`p :: ps` in a character list, as the JavaScript
`(text.match(new RegExp(escapedToken, 'g')) || []).length` does for a
literal pattern.  Structured with explicit fuel so that the kernel can
evaluate it; `fuel` is instantiated with the length of the text. -/
def countOccsF (p : Char) (ps : List Char) : Nat → List Char → Nat
  | _, [] => 0
  | 0, _ :: _ => 0
  | fuel + 1, c :: rest =>
    if c = p ∧ ps.isPrefixOf rest then
      1 + countOccsF p ps fuel (rest.drop ps.length)
    else
      countOccsF p ps fuel rest

/-- Occurrence count of a literal pattern in a text (0 for the empty
pattern, which does not occur among the special tokens). -/
def countOccs (pat : List Char) (s : List Char) : Nat :=
  match pat with
  | [] => 0
  | p :: ps => countOccsF p ps s.length s

/-- Remove the leftmost non-overlapping occurrences of the pattern
`p :: ps`, as `cleanText.replace(regex, '')` does for a literal pattern. -/
def removeOccsF (p : Char) (ps : List Char) : Nat → List Char → List Char
  | _, [] => []
  | 0, s => s
  | fuel + 1, c :: rest =>
    if c = p ∧ ps.isPrefixOf rest then
      removeOccsF p ps fuel (rest.drop ps.length)
    else
      c :: removeOccsF p ps fuel rest

/-- Removal of all occurrences of a literal pattern from a text. -/
def removeOccs (pat : List Char) (s : List Char) : List Char :=
  match pat with
  | [] => s
  | p :: ps => removeOccsF p ps s.length s

/-- The special marker substrings of `TokenCounter.specialTokens`, in
object-insertion order; each occurrence counts as exactly one token. -/
def specialTokens : List (List Char) :=
  ["<|begin_of_text|>".data, "<|start_header_id|>".data,
   "<|end_header_id|>".data, "<|eot_id|>".data,
   "system".data, "user".data, "assistant".data]

/-- `TokenCounter.estimateTokens(text)`: each special-token occurrence
(counted on the original text) contributes one token; the special tokens
are then stripped (sequentially) and the remaining characters contribute
`Math.ceil(length / 4)` tokens.  The empty string yields 0 through the
same formula as through the source's early return. -/
def estimateTokens (text : List Char) : Nat :=
  let special := (specialTokens.map fun pat => countOccs pat text).sum
  let clean := specialTokens.foldl (fun acc pat => removeOccs pat acc) text
  special + (clean.length + 3) / 4

/-- `TokenCounter.countTokens(messages)` on a message list: per message
with truthy (non-empty) content, its content estimate plus 3 structural
overhead tokens. -/
def countTokens (messages : List Msg) : Nat :=
  messages.foldl
    (fun acc m =>
      if m.content ≠ "" then acc + estimateTokens m.content.data + 3 else acc)
    0

/-- `TokenCounter.estimateResponseTokens(inputTokens, maxTokens)`; the
JavaScript float arithmetic is modelled exactly over `ℚ`. -/
def estimateResponseTokens (inputTokens : ℚ) (maxTokens : ℚ) : ℚ :=
  let minResponse := min 50 (maxTokens * (1 / 10))
  let estimatedResponse := min (inputTokens * (3 / 10)) (maxTokens * (2 / 5))
  max minResponse estimatedResponse

/-! ## Context trimming (shared loop shape)

All three trimming routines (`GroqService.trimContext`,
`HuggingFaceService.trimContext`, `TokenCounter.trimToTokenLimit`) walk
the non-system messages from the most recent backwards, greedily keeping
a message while the accumulated cost stays within the budget, and stop at
the first message that would exceed it (`break`). -/

/-- The backwards greedy loop, applied to the reversed conversation list
(so its input is newest-first); the result is newest-first and is
re-reversed by the callers, matching `unshift` accumulation (or
`push` followed by `reverse` in `trimToTokenLimit`). -/
def takeRev (cost : Msg → ℚ) (budget : ℚ) : ℚ → List Msg → List Msg
  | _, [] => []
  | total, m :: rest =>
    if total + cost m ≤ budget then m :: takeRev cost budget (total + cost m) rest
    else []

/-- `GroqService.trimContext(messages)`: token-estimator cost, budget
`maxTokensPerRequest * 0.7`, system turns always kept in front. -/
def groqTrimContext (cfg : Config) (messages : List Msg) : List Msg :=
  let systemMessages := messages.filter fun m => m.role == "system"
  let conversationMessages := messages.filter fun m => !(m.role == "system")
  let totalTokens : ℚ := countTokens systemMessages
  let maxContextTokens : ℚ := (cfg.maxTokensPerRequest : ℚ) * (7 / 10)
  systemMessages ++
    (takeRev (fun m => (countTokens [m] : ℚ)) maxContextTokens totalTokens
      conversationMessages.reverse).reverse

/-- `HuggingFaceService.trimContext(messages)`: raw character-count cost,
budget `maxTokensPerRequest * 3`. -/
def hfTrimContext (cfg : Config) (messages : List Msg) : List Msg :=
  let systemMessages := messages.filter fun m => m.role == "system"
  let conversationMessages := messages.filter fun m => !(m.role == "system")
  let totalLength : ℚ :=
    (systemMessages.foldl (fun acc m => acc + m.content.length) 0 : Nat)
  let maxContextLength : ℚ := (cfg.maxTokensPerRequest : ℚ) * 3
  systemMessages ++
    (takeRev (fun m => (m.content.length : ℚ)) maxContextLength totalLength
      conversationMessages.reverse).reverse

/-- `TokenCounter.checkTokenLimit(messages, maxTokens).withinLimit`. -/
def withinTokenLimit (messages : List Msg) (maxTokens : ℚ) : Prop :=
  (countTokens messages : ℚ) +
    estimateResponseTokens (countTokens messages) maxTokens ≤ maxTokens

instance (messages : List Msg) (maxTokens : ℚ) :
    Decidable (withinTokenLimit messages maxTokens) := by
  unfold withinTokenLimit; infer_instance

/-- `TokenCounter.trimToTokenLimit(messages, maxTokens)`: identity when
the estimate is within the limit, otherwise the shared greedy trimming
with budget `maxTokens - responseBuffer`. -/
def trimToTokenLimit (messages : List Msg) (maxTokens : ℚ) : List Msg :=
  if withinTokenLimit messages maxTokens then messages
  else
    let systemMessages := messages.filter fun m => m.role == "system"
    let conversationMessages := messages.filter fun m => !(m.role == "system")
    let currentTokens : ℚ := countTokens systemMessages
    let responseBuffer := estimateResponseTokens currentTokens maxTokens
    systemMessages ++
      (takeRev (fun m => (countTokens [m] : ℚ)) (maxTokens - responseBuffer)
        currentTokens conversationMessages.reverse).reverse

/-! ## Provider clients (`services/groqService.js`, `services/huggingfaceService.js`) -/

/-- The spec's provider-error taxonomy, as produced by the two clients'
catch blocks (each client throws a distinct `Error` per case). -/
inductive ProviderError where
  | rateLimited
  | authentication
  | modelLoading
  | server
  | api (status : Nat)
  | timeout
  | unknown
deriving DecidableEq

/-- The outcome of the single HTTP call a client makes: a parsed body, an
axios rejection carrying a non-2xx status (`error.response` present), a
timeout (`error.code === 'ECONNABORTED'`), or another network-level
failure. -/
inductive HttpOutcome where
  | ok (generatedText : String)
  | httpError (status : Nat)
  | timedOut
  | networkError
deriving DecidableEq

/-- `GroqService.generateResponse`'s catch-block classification of a
non-2xx status (checked in source order: 429, 401, `>= 500`, other). -/
def classifyGroqStatus (status : Nat) : ProviderError :=
  if status = 429 then .rateLimited
  else if status = 401 then .authentication
  else if 500 ≤ status then .server
  else .api status

/-- `HuggingFaceService.generateResponse`'s catch-block classification
(checked in source order: 429, 401, 503, `>= 500`, other). -/
def classifyHfStatus (status : Nat) : ProviderError :=
  if status = 429 then .rateLimited
  else if status = 401 then .authentication
  else if status = 503 then .modelLoading
  else if 500 ≤ status then .server
  else .api status

/-- JavaScript `String.prototype.trim` on a character list. -/
def trimChars (s : List Char) : List Char :=
  ((s.dropWhile Char.isWhitespace).reverse.dropWhile Char.isWhitespace).reverse

/-- Scan for the closing `|>` of a non-greedy `<\|.*?\|>` match; `.` does
not cross a line terminator, so the search aborts at a newline.  Returns
the remainder after the closing marker when found. -/
def findMarkerClose : List Char → Option (List Char)
  | [] => none
  | '|' :: '>' :: rest => some rest
  | '\n' :: _ => none
  | '\r' :: _ => none
  | _ :: rest => findMarkerClose rest

/-- One fueled pass of `text.replace(/<\|.*?\|>/g, '')`. -/
def stripMarkersF : Nat → List Char → List Char
  | 0, s => s
  | _ + 1, [] => []
  | fuel + 1, '<' :: '|' :: rest =>
    match findMarkerClose rest with
    | some rest' => stripMarkersF fuel rest'
    | none => '<' :: stripMarkersF fuel ('|' :: rest)
  | fuel + 1, c :: rest => c :: stripMarkersF fuel rest

/-- `HuggingFaceService.cleanResponse(text)`: trim, strip `<|...|>`
markers (the dedicated second `<|eot_id|>` replace finds nothing left),
trim again. -/
def cleanResponse (text : String) : String :=
  let cleaned := trimChars text.data
  let cleaned := stripMarkersF cleaned.length cleaned
  let cleaned := removeOccs "<|eot_id|>".data cleaned
  ⟨trimChars cleaned⟩

/-- `HuggingFaceService.messagesToPrompt(messages)`: flatten the turns
into a single LLaMA-style prompt with role-header markers, ending with an
open assistant header. -/
def messagesToPrompt (messages : List Msg) : String :=
  (messages.foldl
    (fun acc m =>
      if m.role == "system" then
        acc ++ "<|begin_of_text|><|start_header_id|>system<|end_header_id|>\n"
          ++ m.content ++ "<|eot_id|>"
      else if m.role == "user" then
        acc ++ "<|start_header_id|>user<|end_header_id|>\n"
          ++ m.content ++ "<|eot_id|>"
      else if m.role == "assistant" then
        acc ++ "<|start_header_id|>assistant<|end_header_id|>\n"
          ++ m.content ++ "<|eot_id|>"
      else acc)
    "") ++ "<|start_header_id|>assistant<|end_header_id|>\n"

/-- `GroqService.generateResponse(messages)`: trims the context, issues
one HTTP call (its outcome is the oracle argument — the client never
retries), returns the trimmed generated content on success and the
classified error otherwise. -/
def groqGenerateResponse (cfg : Config) (messages : List Msg)
    (outcome : HttpOutcome) : Except ProviderError Msg :=
  let _request := groqTrimContext cfg messages
  match outcome with
  | .ok content => .ok ⟨"assistant", (⟨trimChars content.data⟩ : String)⟩
  | .httpError status => .error (classifyGroqStatus status)
  | .timedOut => .error .timeout
  | .networkError => .error .unknown

/-- `HuggingFaceService.generateResponse(messages)`: trims the context,
serializes the prompt, issues one HTTP call (oracle outcome, never
retried), post-processes the generated text on success and classifies the
error otherwise. -/
def hfGenerateResponse (cfg : Config) (messages : List Msg)
    (outcome : HttpOutcome) : Except ProviderError Msg :=
  let _request := messagesToPrompt (hfTrimContext cfg messages)
  match outcome with
  | .ok generated => .ok ⟨"assistant", cleanResponse generated⟩
  | .httpError status => .error (classifyHfStatus status)
  | .timedOut => .error .timeout
  | .networkError => .error .unknown

/-! ## Conversation store (`ConversationManager`) -/

/-- One user's conversation state (the store's map values). -/
structure Conversation where
  messages : List Msg
  lastActivity : Nat
  messageCount : Nat
deriving DecidableEq

/-- The store's `Map`, modelled pointwise. -/
def Convs := String → Option Conversation

/-- The empty store. -/
def emptyConvs : Convs := fun _ => none

/-- Pointwise map update (`Map.prototype.set`). -/
def setConv (cs : Convs) (userId : String) (c : Conversation) : Convs :=
  fun u => if u = userId then some c else cs u

/-- Pointwise map deletion (`Map.prototype.delete`). -/
def delConv (cs : Convs) (userId : String) : Convs :=
  fun u => if u = userId then none else cs u

/-- `Array.prototype.slice` with a single (possibly negative) argument,
as used by `addMessage`'s `otherMessages.slice(-keepCount)`. -/
def jsSlice {α : Type} (a : Int) (l : List α) : List α :=
  if a < 0 then l.drop (l.length - (-a).toNat) else l.drop a.toNat

/-- `ConversationManager.getContext(userId)` at time `now`: `[]` when no
state is stored; lazy expiry (deleting the state) when idle beyond the
timeout; otherwise refresh `lastActivity` and return the messages. -/
def getContext (cfg : Config) (now : Nat) (cs : Convs) (userId : String) :
    List Msg × Convs :=
  match cs userId with
  | none => ([], cs)
  | some conversation =>
    if now - conversation.lastActivity > cfg.conversationTimeout then
      ([], delConv cs userId)
    else
      (conversation.messages,
        setConv cs userId { conversation with lastActivity := now })

/-- The trim step of `ConversationManager.addMessage`: when the stored
count exceeds `maxContextMessages`, partition into system and non-system
turns, keep all system turns and `otherMessages.slice(-keepCount)` of
the rest, with `keepCount = max - systemMessages.length`. -/
def addTrim (cfg : Config) (msgs : List Msg) : List Msg :=
  if msgs.length > cfg.maxContextMessages then
    let systemMessages := msgs.filter fun m => m.role == "system"
    let otherMessages := msgs.filter fun m => !(m.role == "system")
    let keepCount : Int := (cfg.maxContextMessages : Int) - systemMessages.length
    systemMessages ++ jsSlice (-keepCount) otherMessages
  else msgs

/-- `ConversationManager.addMessage(userId, role, content)` at time
`now`: lazily create the state, append the turn, bump the counters, and
apply the trim step. -/
def addMessage (cfg : Config) (now : Nat) (cs : Convs) (userId : String)
    (role content : String) : Convs :=
  let conversation :=
    (cs userId).getD { messages := [], lastActivity := now, messageCount := 0 }
  let conversation :=
    { conversation with
        messages := addTrim cfg (conversation.messages ++ [⟨role, content⟩])
        messageCount := conversation.messageCount + 1
        lastActivity := now }
  setConv cs userId conversation

/-- `ConversationManager.clearContext(userId)`. -/
def clearContext (cs : Convs) (userId : String) : Bool × Convs :=
  match cs userId with
  | some _ => (true, delConv cs userId)
  | none => (false, cs)

/-! ## Rate limiter (`services/rateLimiter.js`) -/

/-- One user's sliding-window state (`userLimits` map values). -/
structure UserLimit where
  count : Nat
  resetTime : Nat
  firstRequest : Nat
deriving DecidableEq

/-- The rate limiter's mutable state: the per-user map and the global
daily Groq quota counter with its reset timestamp. -/
structure RateState where
  userLimits : String → Option UserLimit
  groqRequests : Nat
  groqResetTime : Nat

/-- Pointwise update of the per-user map. -/
def setLimit (rs : RateState) (userId : String) (l : UserLimit) : RateState :=
  { rs with userLimits := fun u => if u = userId then some l else rs.userLimits u }

/-- `RateLimiter.checkUserLimit(userId)` at time `now`: first sight
creates `{count: 1, resetTime: now + windowMs, firstRequest: now}` and
admits; an elapsed window resets to count 1 and admits; under the limit
increments and admits; otherwise rejects without mutating. -/
def checkUserLimit (cfg : Config) (now : Nat) (rs : RateState)
    (userId : String) : Bool × RateState :=
  match rs.userLimits userId with
  | none =>
    (true, setLimit rs userId
      { count := 1, resetTime := now + cfg.userWindowMs, firstRequest := now })
  | some userLimit =>
    if now > userLimit.resetTime then
      (true, setLimit rs userId
        { count := 1, resetTime := now + cfg.userWindowMs, firstRequest := now })
    else if userLimit.count < cfg.userMax then
      (true, setLimit rs userId { userLimit with count := userLimit.count + 1 })
    else
      (false, rs)

/-- `RateLimiter.getNextResetTime()`: the next UTC midnight strictly
after `now`, in milliseconds. -/
def nextResetTime (now : Nat) : Nat :=
  (now / 86400000 + 1) * 86400000

/-- `RateLimiter.checkGroqLimit()` at time `now`: lazy daily reset when
the window has passed, then a read-only capacity check. -/
def checkGroqLimit (cfg : Config) (now : Nat) (rs : RateState) :
    Bool × RateState :=
  let rs :=
    if now > rs.groqResetTime then
      { rs with groqRequests := 0, groqResetTime := nextResetTime now }
    else rs
  (rs.groqRequests < cfg.groqDaily, rs)

/-- `RateLimiter.incrementGroq()`. -/
def incrementGroq (rs : RateState) : RateState :=
  { rs with groqRequests := rs.groqRequests + 1 }

/-- A rate-limiter state with an empty user map. -/
def initRateState (groqRequests groqResetTime : Nat) : RateState :=
  { userLimits := fun _ => none, groqRequests := groqRequests,
    groqResetTime := groqResetTime }

/-! ## Response orchestrator (`DiscordAIBot`) -/

/-- The process-wide active provider selection (`this.currentModel`). -/
inductive ProviderSel where
  | groq
  | huggingface
deriving DecidableEq

/-- The orchestrator's mutable state: the conversation store, the rate
limiter, the sticky provider selection, and the stats counters. -/
structure BotState where
  convs : Convs
  rate : RateState
  currentModel : ProviderSel
  statsGroqRequests : Nat
  statsHfRequests : Nat
  statsTotalMessages : Nat
  statsErrors : Nat

/-- The outcome of one provider attempt, as observed by
`getAIResponse` (the service call either resolves to a response object
with a content string, or throws). -/
inductive Attempt where
  | ok (content : String)
  | fail
deriving DecidableEq

/-- The prompt-storage lookup outcome: a storage error, no stored row, or
a stored row with its `customPrompt` text. -/
def PromptLookup := Except Unit (Option String)

/-- The user-visible outcome of `handleMessage`. -/
inductive HandleResult where
  | rateLimited
  | replied (content : String)
  | failed
deriving DecidableEq

/-- Timestamps of the successive synchronous steps of one inbound
message (the awaits between them let time pass). -/
structure Clock where
  tRate : Nat
  tCtx : Nat
  tQuota : Nat
  tAddUser : Nat
  tAddAssistant : Nat

/-- `DiscordAIBot.getAIResponse(content, context, userId)`: resolve the
system prompt (falling back to the default on a storage error or a falsy
stored prompt), build `[system, ...context, user]`, attempt Groq only
when it is the current selection and `checkGroqLimit()` passes
(consuming one quota unit only on its success), then fall back to
Hugging Face — setting `currentModel = 'huggingface'` before the
fallback call — and return `null` when both fail. -/
def getAIResponse (cfg : Config) (now : Nat) (st : BotState)
    (content : String) (context : List Msg) (promptRes : PromptLookup)
    (groqRes hfRes : Attempt) : Option String × BotState :=
  let systemPrompt :=
    match promptRes with
    | .ok (some customPrompt) =>
      if customPrompt ≠ "" then customPrompt else cfg.systemPrompt
    | _ => cfg.systemPrompt
  let _messages : List Msg :=
    ⟨"system", systemPrompt⟩ :: context ++ [⟨"user", content⟩]
  let fallback : BotState → Option String × BotState := fun st =>
    let st := { st with currentModel := .huggingface }
    match hfRes with
    | .ok c => (some c, { st with statsHfRequests := st.statsHfRequests + 1 })
    | .fail => (none, st)
  match st.currentModel with
  | .groq =>
    let chk := checkGroqLimit cfg now st.rate
    let st := { st with rate := chk.2 }
    if chk.1 then
      match groqRes with
      | .ok c =>
        (some c,
          { st with
              statsGroqRequests := st.statsGroqRequests + 1
              rate := incrementGroq st.rate })
      | .fail => fallback st
    else fallback st
  | .huggingface => fallback st

/-- `DiscordAIBot.handleMessage(message)` for an inbound message with
(mention-cleaned, non-empty) text `content` from user `userId`: bump the
message counter, consult the per-user rate limit (replying and stopping
on rejection), read the conversation context, obtain the AI response,
and on success append the user turn then the assistant turn to the
store; on failure reply with the error notice and bump the error
counter. -/
def handleMessage (cfg : Config) (clk : Clock) (st : BotState)
    (userId content : String) (promptRes : PromptLookup)
    (groqRes hfRes : Attempt) : HandleResult × BotState :=
  let st := { st with statsTotalMessages := st.statsTotalMessages + 1 }
  let chk := checkUserLimit cfg clk.tRate st.rate userId
  let st := { st with rate := chk.2 }
  if chk.1 then
    let ctx := getContext cfg clk.tCtx st.convs userId
    let st := { st with convs := ctx.2 }
    let res :=
      getAIResponse cfg clk.tQuota st content ctx.1 promptRes groqRes hfRes
    match res.1 with
    | some c =>
      let convs := addMessage cfg clk.tAddUser res.2.convs userId "user" content
      let convs := addMessage cfg clk.tAddAssistant convs userId "assistant" c
      (.replied c, { res.2 with convs := convs })
    | none =>
      (.failed, { res.2 with statsErrors := res.2.statsErrors + 1 })
  else
    (.rateLimited, st)

/-! ## Call-sequence runners used by the claims -/

/-- Run a sequence of `checkUserLimit` calls for one user at the given
times, collecting the admission verdicts. -/
def runUserCalls (cfg : Config) (userId : String) (rs : RateState) :
    List Nat → List Bool × RateState
  | [] => ([], rs)
  | t :: ts =>
    let (admitted, rs') := checkUserLimit cfg t rs userId
    let (verdicts, rs'') := runUserCalls cfg userId rs' ts
    (admitted :: verdicts, rs'')

/-- Run a sequence of `checkUserLimit` calls for arbitrary users at
arbitrary times (state only). -/
def runChecks (cfg : Config) (rs : RateState) :
    List (Nat × String) → RateState
  | [] => rs
  | (t, u) :: calls => runChecks cfg (checkUserLimit cfg t rs u).2 calls

/-- Run a sequence of `addMessage` calls for one user. -/
def runAdds (cfg : Config) (now : Nat) (userId : String) (cs : Convs) :
    List (String × String) → Convs
  | [] => cs
  | (role, content) :: adds =>
    runAdds cfg now userId (addMessage cfg now cs userId role content) adds

/-! ## Shared helper notions and a concrete configuration -/

/-- A concrete configuration matching the source's defaults and the
spec's scenarios: `maxContextMessages = 10`, a one-hour conversation
timeout, `userMessages.max = 5` with a 100 ms window, `groqDaily = 1000`,
`maxTokensPerRequest = 4000`. -/
def specConfig : Config :=
  { maxContextMessages := 10, conversationTimeout := 3600000, userMax := 5,
    userWindowMs := 100, groqDaily := 1000, maxTokensPerRequest := 4000,
    systemPrompt := "You are a helpful assistant" }

/-- The stored message lists, the observable the store-mutation claims
are about. -/
def convMessages (cs : Convs) (userId : String) : Option (List Msg) :=
  (cs userId).map Conversation.messages

/-- The sender's conversation, when present, has not idled past the
timeout at the context-fetch instant (so the lazy TTL expiry of
`getContext` does not fire). -/
def ConvFresh (cfg : Config) (now : Nat) (cs : Convs) (userId : String) : Prop :=
  ∀ c, cs userId = some c → now - c.lastActivity ≤ cfg.conversationTimeout

/-- The global quota counter as it stands after the at-most-one lazy
reset a message can trigger (the `checkGroqLimit` call happens only for
an admitted message while the primary is the current selection). -/
def quotaBase (cfg : Config) (clk : Clock) (st : BotState) (userId : String) : Nat :=
  if (checkUserLimit cfg clk.tRate st.rate userId).1 = true
      ∧ st.currentModel = .groq ∧ clk.tQuota > st.rate.groqResetTime
  then 0 else st.rate.groqRequests

/-- Every stored per-user window count is within the configured
per-window maximum. -/
def CountBounded (cfg : Config) (rs : RateState) : Prop :=
  ∀ u l, rs.userLimits u = some l → l.count ≤ cfg.userMax

/-- The trimming contract of the spec: system turns survive, and the
non-system output turns are a contiguous suffix of the non-system input
turns in chronological order. -/
def TrimSpec (inp out : List Msg) : Prop :=
  (∀ m ∈ inp, m.role = "system" → m ∈ out) ∧
  ∃ k, out.filter (fun m => !(m.role == "system"))
        = (inp.filter fun m => !(m.role == "system")).drop k

/-- No special marker substring occurs in the text. -/
def markerFree (s : List Char) : Prop :=
  ∀ pat ∈ specialTokens, countOccs pat s = 0

instance (s : List Char) : Decidable (markerFree s) := by
  unfold markerFree; infer_instance

/-! ## Small structural lemmas about the components -/

theorem checkUserLimit_groqRequests (cfg : Config) (now : Nat)
    (rs : RateState) (userId : String) :
    (checkUserLimit cfg now rs userId).2.groqRequests = rs.groqRequests := by
  unfold checkUserLimit setLimit
  cases rs.userLimits userId
  · rfl
  · dsimp only
    split_ifs <;> rfl

theorem checkUserLimit_groqResetTime (cfg : Config) (now : Nat)
    (rs : RateState) (userId : String) :
    (checkUserLimit cfg now rs userId).2.groqResetTime = rs.groqResetTime := by
  unfold checkUserLimit setLimit
  cases rs.userLimits userId
  · rfl
  · dsimp only
    split_ifs <;> rfl

theorem checkGroqLimit_userLimits (cfg : Config) (now : Nat) (rs : RateState) :
    (checkGroqLimit cfg now rs).2.userLimits = rs.userLimits := by
  unfold checkGroqLimit
  split_ifs <;> rfl

theorem nextResetTime_gt (now : Nat) : now < nextResetTime now := by
  unfold nextResetTime
  have h1 := Nat.div_add_mod now 86400000
  have h2 : now % 86400000 < 86400000 := Nat.mod_lt _ (by norm_num)
  omega

/-! ## C8: conversation round trip -/

/-- C8: starting from an empty store, `addMessage(u,'user','hi')` then
`addMessage(u,'assistant','hello')` then `getContext(u)` (all within the
timeout) returns exactly the two turns in order. -/
theorem conversation_round_trip :
    (getContext specConfig 0
      (addMessage specConfig 0
        (addMessage specConfig 0 emptyConvs "u" "user" "hi")
        "u" "assistant" "hello")
      "u").1 = [⟨"user", "hi"⟩, ⟨"assistant", "hello"⟩] := by
  rfl

/-! ## C9: lazy reset idempotence -/

/-- C9 counterexample: with a stale window (`resetAt` passed) and a
nonzero counter, the first `checkGroqLimit` call already changes
`requestCount` (it performs the lazy reset to 0), so "requestCount is
unchanged by both calls" fails as stated. -/
theorem checkGroqLimit_first_call_changes_count :
    ((checkGroqLimit specConfig 1 (initRateState 1 0)).2).groqRequests
      ≠ (initRateState 1 0).groqRequests := by
  decide

/-- C9 amended: for two immediately successive `checkGroqLimit` calls
with no intervening `incrementGroq`, the second call is always a no-op
(it performs no reset and changes neither `requestCount` nor `resetAt`,
and returns the same verdict); `requestCount` is moreover unchanged by
both calls provided the first call does not lazily reset a stale nonzero
counter (i.e. when the window has not passed or the counter is already
0). -/
theorem checkGroqLimit_second_call_noop (cfg : Config) (now : Nat)
    (rs : RateState) :
    (checkGroqLimit cfg now (checkGroqLimit cfg now rs).2).2
        = (checkGroqLimit cfg now rs).2 ∧
    (checkGroqLimit cfg now (checkGroqLimit cfg now rs).2).1
        = (checkGroqLimit cfg now rs).1 ∧
    (now ≤ rs.groqResetTime ∨ rs.groqRequests = 0 →
      (checkGroqLimit cfg now rs).2.groqRequests = rs.groqRequests ∧
      (checkGroqLimit cfg now (checkGroqLimit cfg now rs).2).2.groqRequests
        = rs.groqRequests) := by
  have hn := nextResetTime_gt now
  unfold checkGroqLimit
  dsimp only
  split_ifs with h1 h2
  · simp at h2
    omega
  · refine ⟨rfl, rfl, fun hc => ?_⟩
    have hz : rs.groqRequests = 0 := by
      rcases hc with hc | hc
      · omega
      · exact hc
    simp [hz]
  · exact ⟨rfl, rfl, fun _ => ⟨rfl, rfl⟩⟩

/-- C9 witness: the amended statement instantiated at a concrete state
whose window has not passed. -/
theorem checkGroqLimit_second_call_noop_witness :
    ((checkGroqLimit specConfig 5 (initRateState 3 10)).2.groqRequests
        = (initRateState 3 10).groqRequests ∧
      (checkGroqLimit specConfig 5
          (checkGroqLimit specConfig 5 (initRateState 3 10)).2).2.groqRequests
        = (initRateState 3 10).groqRequests) :=
  (checkGroqLimit_second_call_noop specConfig 5 (initRateState 3 10)).2.2
    (by left; decide)

/-! ## C2: sticky provider selection -/

/-- A fresh bot state with the given active provider selection. -/
def initBotState (sel : ProviderSel) : BotState :=
  { convs := emptyConvs, rate := initRateState 0 86400000, currentModel := sel,
    statsGroqRequests := 0, statsHfRequests := 0, statsTotalMessages := 0,
    statsErrors := 0 }

/-- When `getAIResponse` returns `null` (both attempts failed or were
skipped), the fallback block has already executed
`this.currentModel = 'huggingface'` before its attempt, so the selection
ends up `huggingface`. -/
theorem getAIResponse_none_selection (cfg : Config) (now : Nat)
    (st : BotState) (content : String) (context : List Msg)
    (promptRes : PromptLookup) (groqRes hfRes : Attempt)
    (hfail :
      (getAIResponse cfg now st content context promptRes groqRes hfRes).1
        = none) :
    (getAIResponse cfg now st content context promptRes groqRes hfRes).2.currentModel
      = .huggingface := by
  unfold getAIResponse at *
  cases hmodel : st.currentModel <;> simp only [hmodel] at hfail ⊢
  · split at hfail
    · cases groqRes <;> cases hfRes <;> simp_all
    · cases hfRes <;> simp_all
  · cases hfRes <;> simp_all

/-- C2 counterexample: with the primary selected and under quota, a
message whose primary and fallback attempts both fail ends in the
terminal failure, yet the provider selection used for the next message
has changed from `groq` to `huggingface` (the source marks the
selection as fallback before the fallback attempt, not on its
success). -/
theorem fallback_failure_flips_selection :
    (handleMessage specConfig ⟨0, 0, 0, 0, 0⟩ (initBotState .groq)
        "u" "hi" (.ok none) .fail .fail).1 = .failed ∧
    (initBotState .groq).currentModel = .groq ∧
    (handleMessage specConfig ⟨0, 0, 0, 0, 0⟩ (initBotState .groq)
        "u" "hi" (.ok none) .fail .fail).2.currentModel
      ≠ (initBotState .groq).currentModel := by
  refine ⟨rfl, rfl, ?_⟩
  decide

/-- C2 amended: the selection is marked `huggingface` whenever the
fallback attempt runs, even when it fails: after any message that ends
in the terminal failure (primary skipped or failed, fallback failed),
the provider selection for the next message is `huggingface` regardless
of its value before the message (it is unchanged only if it already was
the fallback). -/
theorem selection_fallback_after_failed_message (cfg : Config)
    (clk : Clock) (st : BotState) (userId content : String)
    (promptRes : PromptLookup) (groqRes hfRes : Attempt)
    (hfail : (handleMessage cfg clk st userId content promptRes groqRes hfRes).1
      = .failed) :
    (handleMessage cfg clk st userId content promptRes groqRes hfRes).2.currentModel
      = .huggingface := by
  unfold handleMessage at *
  dsimp only at hfail ⊢
  split at hfail
  · rename_i hadm
    simp only [hadm, if_true] at hfail ⊢
    generalize hres : getAIResponse cfg clk.tQuota
      { convs := (getContext cfg clk.tCtx st.convs userId).2,
        rate := (checkUserLimit cfg clk.tRate st.rate userId).2,
        currentModel := st.currentModel,
        statsGroqRequests := st.statsGroqRequests,
        statsHfRequests := st.statsHfRequests,
        statsTotalMessages := st.statsTotalMessages + 1,
        statsErrors := st.statsErrors }
      content (getContext cfg clk.tCtx st.convs userId).1 promptRes groqRes hfRes
      = res at hfail ⊢
    obtain ⟨r1, st2⟩ := res
    cases r1
    · have h2 : st2.currentModel = .huggingface := by
        have h3 := getAIResponse_none_selection cfg clk.tQuota _ content
          (getContext cfg clk.tCtx st.convs userId).1 promptRes groqRes hfRes
          (by rw [hres])
        rw [hres] at h3
        exact h3
      simpa using h2
    · simp at hfail
  · rename_i hadm
    simp only [hadm, if_false] at hfail
    simp at hfail

/-- C2 amended witness: the failed-message hypothesis discharged at the
concrete both-providers-fail run. -/
theorem selection_fallback_after_failed_message_witness :
    (handleMessage specConfig ⟨0, 0, 0, 0, 0⟩ (initBotState .groq)
        "u" "hi" (.ok none) .fail .fail).1 = .failed ∧
    (handleMessage specConfig ⟨0, 0, 0, 0, 0⟩ (initBotState .groq)
        "u" "hi" (.ok none) .fail .fail).2.currentModel = .huggingface :=
  ⟨rfl,
    selection_fallback_after_failed_message specConfig ⟨0, 0, 0, 0, 0⟩
      (initBotState .groq) "u" "hi" (.ok none) .fail .fail rfl⟩

/-! ## C3: provider error classification -/

/-- C3: both clients classify the HTTP-layer failure of one (never
internally retried) `generateResponse` call per the spec's taxonomy:
401 → authentication, 429 → rate-limited, 503 → model-loading for the
fallback client but (≥ 500) server error for the primary, other ≥ 500 →
server error, any other non-2xx → API error carrying the status, and a
request timeout → timeout error. -/
theorem provider_error_classification (cfg : Config) (messages : List Msg)
    (status : Nat) :
    (status = 401 →
      groqGenerateResponse cfg messages (.httpError status)
          = .error .authentication ∧
      hfGenerateResponse cfg messages (.httpError status)
          = .error .authentication) ∧
    (status = 429 →
      groqGenerateResponse cfg messages (.httpError status)
          = .error .rateLimited ∧
      hfGenerateResponse cfg messages (.httpError status)
          = .error .rateLimited) ∧
    hfGenerateResponse cfg messages (.httpError 503) = .error .modelLoading ∧
    groqGenerateResponse cfg messages (.httpError 503) = .error .server ∧
    (500 ≤ status →
      groqGenerateResponse cfg messages (.httpError status) = .error .server) ∧
    (500 ≤ status → status ≠ 503 →
      hfGenerateResponse cfg messages (.httpError status) = .error .server) ∧
    (status < 500 → status ≠ 401 → status ≠ 429 →
      groqGenerateResponse cfg messages (.httpError status)
          = .error (.api status) ∧
      hfGenerateResponse cfg messages (.httpError status)
          = .error (.api status)) ∧
    groqGenerateResponse cfg messages .timedOut = .error .timeout ∧
    hfGenerateResponse cfg messages .timedOut = .error .timeout := by
  refine ⟨fun h => ?_, fun h => ?_, ?_, ?_, fun h => ?_, fun h h' => ?_,
    fun h h1 h2 => ?_, rfl, rfl⟩ <;>
      simp only [groqGenerateResponse, hfGenerateResponse, classifyGroqStatus,
        classifyHfStatus] <;>
      split_ifs <;>
      simp_all <;>
      omega

/-- C3 witness: the classification facts instantiated at concrete
statuses (401, 429, 503, 500, 418) and at the timeout outcome. -/
theorem provider_error_classification_witness :
    (groqGenerateResponse specConfig [] (.httpError 401)
        = .error .authentication ∧
      hfGenerateResponse specConfig [] (.httpError 401)
        = .error .authentication) ∧
    (groqGenerateResponse specConfig [] (.httpError 429)
        = .error .rateLimited ∧
      hfGenerateResponse specConfig [] (.httpError 429)
        = .error .rateLimited) ∧
    hfGenerateResponse specConfig [] (.httpError 503) = .error .modelLoading ∧
    groqGenerateResponse specConfig [] (.httpError 503) = .error .server ∧
    groqGenerateResponse specConfig [] (.httpError 500) = .error .server ∧
    hfGenerateResponse specConfig [] (.httpError 500) = .error .server ∧
    (groqGenerateResponse specConfig [] (.httpError 418)
        = .error (.api 418) ∧
      hfGenerateResponse specConfig [] (.httpError 418)
        = .error (.api 418)) ∧
    groqGenerateResponse specConfig [] .timedOut = .error .timeout ∧
    hfGenerateResponse specConfig [] .timedOut = .error .timeout :=
  ⟨(provider_error_classification specConfig [] 401).1 rfl,
    (provider_error_classification specConfig [] 429).2.1 rfl,
    (provider_error_classification specConfig [] 503).2.2.1,
    (provider_error_classification specConfig [] 503).2.2.2.1,
    (provider_error_classification specConfig [] 500).2.2.2.2.1 (by omega),
    (provider_error_classification specConfig [] 500).2.2.2.2.2.1 (by omega)
      (by omega),
    (provider_error_classification specConfig [] 418).2.2.2.2.2.2.1
      (by omega) (by omega) (by omega),
    (provider_error_classification specConfig [] 0).2.2.2.2.2.2.2⟩

/-! ## C5: per-user sliding-window limit -/

/-- One `checkUserLimit` call preserves the per-window count bound (for
a positive configured maximum). -/
theorem checkUserLimit_preserves_bound (cfg : Config)
    (hmax : 0 < cfg.userMax) (now : Nat) (rs : RateState) (userId : String)
    (hb : CountBounded cfg rs) :
    CountBounded cfg (checkUserLimit cfg now rs userId).2 := by
  unfold checkUserLimit
  cases hu : rs.userLimits userId with
  | none =>
    intro v l hv
    simp only [setLimit] at hv
    by_cases hvu : v = userId
    · simp only [hvu, if_pos] at hv
      cases hv
      simpa using hmax
    · simp only [hvu, if_neg, not_false_iff] at hv
      exact hb v l hv
  | some userLimit =>
    dsimp only
    split_ifs with h1 h2
    · intro v l hv
      simp only [setLimit] at hv
      by_cases hvu : v = userId
      · simp only [hvu, if_pos] at hv
        cases hv
        simpa using hmax
      · simp only [hvu, if_neg, not_false_iff] at hv
        exact hb v l hv
    · intro v l hv
      simp only [setLimit] at hv
      by_cases hvu : v = userId
      · simp only [hvu, if_pos] at hv
        cases hv
        simpa using h2
      · simp only [hvu, if_neg, not_false_iff] at hv
        exact hb v l hv
    · exact hb

/-- Any sequence of `checkUserLimit` calls preserves the count bound. -/
theorem runChecks_preserves_bound (cfg : Config) (hmax : 0 < cfg.userMax) :
    ∀ (calls : List (Nat × String)) (rs : RateState), CountBounded cfg rs →
      CountBounded cfg (runChecks cfg rs calls)
  | [], _, hb => hb
  | (t, u) :: calls, rs, hb =>
    runChecks_preserves_bound cfg hmax calls _
      (checkUserLimit_preserves_bound cfg hmax t rs u hb)

/-- C5: starting from an empty per-user map, no sequence of
`checkUserLimit` calls ever stores a window count above the (positive)
configured maximum; and in the concrete `max = 5` scenario the first 5
requests in a window are admitted, the 6th is rejected leaving the
stored count and window reset time unchanged, and the first request
after the window has elapsed is admitted with the count reset to 1. -/
theorem checkUserLimit_window_bound (cfg : Config) (hmax : 0 < cfg.userMax)
    (g r : Nat) (calls : List (Nat × String)) :
    CountBounded cfg (runChecks cfg (initRateState g r) calls) ∧
    (runUserCalls specConfig "u" (initRateState 0 86400000)
        [0, 0, 0, 0, 0, 0]).1 = [true, true, true, true, true, false] ∧
    ((runUserCalls specConfig "u" (initRateState 0 86400000)
        [0, 0, 0, 0, 0, 0]).2).userLimits "u"
      = ((runUserCalls specConfig "u" (initRateState 0 86400000)
        [0, 0, 0, 0, 0]).2).userLimits "u" ∧
    (runUserCalls specConfig "u" (initRateState 0 86400000)
        [0, 0, 0, 0, 0, 0, 101]).1
      = [true, true, true, true, true, false, true] ∧
    ((runUserCalls specConfig "u" (initRateState 0 86400000)
        [0, 0, 0, 0, 0, 0, 101]).2).userLimits "u"
      = some { count := 1, resetTime := 201, firstRequest := 101 } := by
  refine ⟨?_, by decide, by decide, by decide, by decide⟩
  exact runChecks_preserves_bound cfg hmax calls (initRateState g r)
    (fun v l hv => by simp [initRateState] at hv)

/-- C5 witness: the bound instantiated for a concrete call sequence. -/
theorem checkUserLimit_window_bound_witness :
    0 < specConfig.userMax ∧
    CountBounded specConfig
      (runChecks specConfig (initRateState 0 86400000)
        [(0, "u"), (1, "u"), (2, "v")]) :=
  ⟨by decide,
    (checkUserLimit_window_bound specConfig (by decide) 0 86400000
      [(0, "u"), (1, "u"), (2, "v")]).1⟩

/-! ## C4: context trimming keeps system turns and a recent suffix -/

/-- The greedy loop returns a prefix of its (reversed) input: it stops
at the first message exceeding the budget. -/
theorem takeRev_eq_take (cost : Msg → ℚ) (budget : ℚ) :
    ∀ (l : List Msg) (total : ℚ), ∃ n, takeRev cost budget total l = l.take n
  | [], _ => ⟨0, rfl⟩
  | m :: rest, total => by
    by_cases h : total + cost m ≤ budget
    · obtain ⟨n, hn⟩ := takeRev_eq_take cost budget rest (total + cost m)
      exact ⟨n + 1, by simp [takeRev, h, hn]⟩
    · exact ⟨0, by simp [takeRev, h]⟩

/-- Re-reversing the greedy loop's output yields a contiguous suffix of
the chronological input. -/
theorem takeRev_reverse_suffix (cost : Msg → ℚ) (budget total : ℚ)
    (l : List Msg) :
    ∃ k, (takeRev cost budget total l.reverse).reverse = l.drop k := by
  obtain ⟨n, hn⟩ := takeRev_eq_take cost budget l.reverse total
  refine ⟨l.length - n, ?_⟩
  rw [hn, ← List.rtake_eq_reverse_take_reverse]
  rfl

/-- Any output of the shape `systemFilter ++ (nonSystemFilter.drop k)`
satisfies the trimming contract. -/
theorem trimShape_spec (msgs : List Msg) (k : Nat) :
    TrimSpec msgs ((msgs.filter fun m => m.role == "system")
      ++ (msgs.filter fun m => !(m.role == "system")).drop k) := by
  constructor
  · intro m hm hrole
    exact List.mem_append_left _ (List.mem_filter.mpr ⟨hm, by simp [hrole]⟩)
  · refine ⟨k, ?_⟩
    rw [List.filter_append]
    have h1 : (msgs.filter fun m => m.role == "system").filter
        (fun m => !(m.role == "system")) = [] := by
      rw [List.filter_eq_nil_iff]
      intro a ha
      have := List.of_mem_filter ha
      simp_all
    have h2 : ((msgs.filter fun m => !(m.role == "system")).drop k).filter
        (fun m => !(m.role == "system"))
        = (msgs.filter fun m => !(m.role == "system")).drop k := by
      rw [List.filter_eq_self]
      intro a ha
      have h3 := List.mem_of_mem_drop ha
      have h4 := List.mem_filter.mp h3
      exact h4.2
    rw [h1, h2, List.nil_append]

/-- C4: for each of the three trimming routines and every input turn
sequence, every system-role turn is present in the output, and the
non-system output turns are exactly a contiguous suffix (the most
recent turns) of the non-system input turns, in chronological order. -/
theorem trimming_keeps_system_and_recent_suffix (cfg : Config)
    (maxTokens : ℚ) (messages : List Msg) :
    TrimSpec messages (groqTrimContext cfg messages) ∧
    TrimSpec messages (hfTrimContext cfg messages) ∧
    TrimSpec messages (trimToTokenLimit messages maxTokens) := by
  refine ⟨?_, ?_, ?_⟩
  · unfold groqTrimContext
    dsimp only
    obtain ⟨k, hk⟩ := takeRev_reverse_suffix
      (fun m => (countTokens [m] : ℚ))
      ((cfg.maxTokensPerRequest : ℚ) * (7 / 10))
      ((countTokens (messages.filter fun m => m.role == "system") : ℚ))
      (messages.filter fun m => !(m.role == "system"))
    rw [hk]
    exact trimShape_spec messages k
  · unfold hfTrimContext
    dsimp only
    obtain ⟨k, hk⟩ := takeRev_reverse_suffix
      (fun m => (m.content.length : ℚ))
      ((cfg.maxTokensPerRequest : ℚ) * 3)
      (((messages.filter fun m => m.role == "system").foldl
          (fun acc m => acc + m.content.length) 0 : Nat))
      (messages.filter fun m => !(m.role == "system"))
    rw [hk]
    exact trimShape_spec messages k
  · unfold trimToTokenLimit
    dsimp only
    split_ifs
    · exact ⟨fun m hm _ => hm, 0, rfl⟩
    · obtain ⟨k, hk⟩ := takeRev_reverse_suffix
        (fun m => (countTokens [m] : ℚ))
        (maxTokens - estimateResponseTokens
          ((countTokens (messages.filter fun m => m.role == "system") : ℚ))
          maxTokens)
        ((countTokens (messages.filter fun m => m.role == "system") : ℚ))
        (messages.filter fun m => !(m.role == "system"))
      rw [hk]
      exact trimShape_spec messages k

/-! ## C6 and C7: conversation-store trimming -/

/-- The number of stored system-role turns. -/
def sysLen (msgs : List Msg) : Nat :=
  (msgs.filter fun m => m.role == "system").length

/-- The number of system-role entries in a sequence of `addMessage`
calls (as `(role, content)` pairs). -/
def sysCountAdds (adds : List (String × String)) : Nat :=
  (adds.filter fun rc => rc.1 == "system").length

theorem filter_partition_length (p : Msg → Bool) (l : List Msg) :
    (l.filter p).length + (l.filter fun m => !(p m)).length = l.length := by
  induction l with
  | nil => rfl
  | cons m rest ih =>
    by_cases h : p m <;> simp [List.filter_cons, h] <;> omega

theorem jsSlice_subset {α : Type} (a : Int) (l : List α) (x : α)
    (hx : x ∈ jsSlice a l) : x ∈ l := by
  unfold jsSlice at hx
  split_ifs at hx <;> exact List.mem_of_mem_drop hx

theorem jsSlice_neg (k : Nat) (hk : 0 < k) (l : List Msg) :
    jsSlice (-(k : Int)) l = l.drop (l.length - k) := by
  unfold jsSlice
  rw [if_pos (by omega : -(k : Int) < 0)]
  simp

/-- Trimming never touches the system-role turns: the system filter of
`addTrim`'s output is the system filter of its input. -/
theorem addTrim_sysfilter (cfg : Config) (msgs : List Msg) :
    (addTrim cfg msgs).filter (fun m => m.role == "system")
      = msgs.filter fun m => m.role == "system" := by
  unfold addTrim
  split_ifs with h
  · dsimp only
    rw [List.filter_append]
    have h1 : (msgs.filter fun m => m.role == "system").filter
        (fun m => m.role == "system") = msgs.filter fun m => m.role == "system" := by
      rw [List.filter_eq_self]
      intro a ha
      exact (List.mem_filter.mp ha).2
    have h2 : (jsSlice (-((cfg.maxContextMessages : Int)
          - (msgs.filter fun m => m.role == "system").length))
          (msgs.filter fun m => !(m.role == "system"))).filter
        (fun m => m.role == "system") = [] := by
      rw [List.filter_eq_nil_iff]
      intro a ha
      have h3 := (List.mem_filter.mp (jsSlice_subset _ _ a ha)).2
      simp_all
    rw [h1, h2, List.append_nil]
  · rfl

/-- When fewer system turns are stored than the maximum and the input is
at most one turn over the maximum, `addTrim` brings the length within
the maximum. -/
theorem addTrim_length_le (cfg : Config) (msgs : List Msg)
    (hsys : sysLen msgs < cfg.maxContextMessages)
    (hlen : msgs.length ≤ cfg.maxContextMessages + 1) :
    (addTrim cfg msgs).length ≤ cfg.maxContextMessages := by
  unfold addTrim
  split_ifs with h
  · dsimp only
    have hpart := filter_partition_length (fun m => m.role == "system") msgs
    have hcast : -((cfg.maxContextMessages : Int)
          - (msgs.filter fun m => m.role == "system").length)
        = -((cfg.maxContextMessages - sysLen msgs : Nat) : Int) := by
      unfold sysLen at *
      omega
    rw [hcast, jsSlice_neg _ (by omega) _]
    rw [List.length_append, List.length_drop]
    unfold sysLen at *
    omega
  · omega

/-- The invariant carried through a sequence of `addMessage` calls: the
stored length is within the maximum and the stored system turns plus the
system turns still to be added stay below the maximum. -/
def AddInv (cfg : Config) (adds : List (String × String)) :
    Option Conversation → Prop
  | none => sysCountAdds adds < cfg.maxContextMessages
  | some c => c.messages.length ≤ cfg.maxContextMessages ∧
      sysLen c.messages + sysCountAdds adds < cfg.maxContextMessages

theorem sysLen_append_turn (msgs : List Msg) (role content : String) :
    sysLen (msgs ++ [⟨role, content⟩])
      = sysLen msgs + (if role == "system" then 1 else 0) := by
  unfold sysLen
  rw [List.filter_append]
  by_cases h : role == "system" <;> simp [List.filter_cons, h]

theorem sysCountAdds_cons (role content : String)
    (rest : List (String × String)) :
    sysCountAdds ((role, content) :: rest)
      = (if role == "system" then 1 else 0) + sysCountAdds rest := by
  unfold sysCountAdds
  by_cases h : role == "system" <;> simp [List.filter_cons, h] <;> omega

/-- One `addMessage` call preserves the invariant. -/
theorem addMessage_preserves_inv (cfg : Config) (now : Nat) (cs : Convs)
    (userId role content : String) (rest : List (String × String))
    (hinv : AddInv cfg ((role, content) :: rest) (cs userId)) :
    AddInv cfg rest ((addMessage cfg now cs userId role content) userId) := by
  have hcnt := sysCountAdds_cons role content rest
  cases hcs : cs userId with
  | none =>
    rw [hcs] at hinv
    unfold AddInv at hinv
    have hres : (addMessage cfg now cs userId role content) userId
        = some { messages := addTrim cfg ([] ++ [⟨role, content⟩]),
                 lastActivity := now, messageCount := 0 + 1 } := by
      unfold addMessage setConv
      rw [hcs]
      simp
    rw [hres]
    have hsys1 := sysLen_append_turn [] role content
    have hsys : sysLen ([] ++ [(⟨role, content⟩ : Msg)]) < cfg.maxContextMessages := by
      rw [hsys1]
      unfold sysLen
      simp only [List.filter_nil, List.length_nil]
      omega
    constructor
    · exact addTrim_length_le cfg _ hsys (by simp)
    · have h4 : sysLen (addTrim cfg ([] ++ [(⟨role, content⟩ : Msg)]))
          = sysLen ([] ++ [(⟨role, content⟩ : Msg)]) := by
        unfold sysLen
        rw [addTrim_sysfilter]
      rw [h4, hsys1]
      unfold sysLen
      simp only [List.filter_nil, List.length_nil]
      omega
  | some c =>
    rw [hcs] at hinv
    unfold AddInv at hinv
    obtain ⟨hlen, hmix⟩ := hinv
    have hres : (addMessage cfg now cs userId role content) userId
        = some { messages := addTrim cfg (c.messages ++ [(⟨role, content⟩ : Msg)]),
                 lastActivity := now, messageCount := c.messageCount + 1 } := by
      unfold addMessage setConv
      rw [hcs]
      simp
    rw [hres]
    have hsys1 := sysLen_append_turn c.messages role content
    have hsys : sysLen (c.messages ++ [(⟨role, content⟩ : Msg)])
        < cfg.maxContextMessages := by
      rw [hsys1]
      omega
    constructor
    · exact addTrim_length_le cfg _ hsys (by simp; omega)
    · have h4 : sysLen (addTrim cfg (c.messages ++ [(⟨role, content⟩ : Msg)]))
          = sysLen (c.messages ++ [(⟨role, content⟩ : Msg)]) := by
        unfold sysLen
        rw [addTrim_sysfilter]
      rw [h4, hsys1]
      omega

/-- The invariant yields the bound along any run. -/
theorem runAdds_inv_bound (cfg : Config) (now : Nat) (userId : String) :
    ∀ (adds : List (String × String)) (cs : Convs),
      AddInv cfg adds (cs userId) →
      ∀ c', (runAdds cfg now userId cs adds) userId = some c' →
        c'.messages.length ≤ cfg.maxContextMessages
  | [], cs, hinv, c', hc' => by
    unfold runAdds at hc'
    rw [hc'] at hinv
    exact hinv.1
  | (role, content) :: adds, cs, hinv, c', hc' => by
    unfold runAdds at hc'
    exact runAdds_inv_bound cfg now userId adds _
      (addMessage_preserves_inv cfg now cs userId role content adds hinv)
      c' hc'

/-- C6 counterexample: with the configured maximum 10, adding 10
system-role turns and then one user turn leaves 11 stored turns — the
stored list exceeds the maximum (the source's `slice(-keepCount)`
degenerates when the system turns alone reach the maximum). -/
theorem addMessage_exceeds_max_counterexample :
    specConfig.maxContextMessages = 10 ∧
    ((runAdds specConfig 0 "u" emptyConvs
        (List.replicate 10 ("system", "s") ++ [("user", "hi")])) "u").map
      (fun c => c.messages.length) = some 11 := by
  constructor
  · rfl
  · decide

/-- C6 amended: for every sequence of `addMessage` calls in which fewer
than `maxContextMessages` system-role turns are added, the stored
message list never exceeds the configured maximum after any call (the
unrestricted claim fails once the system-role turns alone reach the
maximum, since they are never evicted). -/
theorem addMessage_length_bound (cfg : Config) (now : Nat) (userId : String)
    (adds : List (String × String))
    (h : sysCountAdds adds < cfg.maxContextMessages) :
    ∀ c', (runAdds cfg now userId emptyConvs adds) userId = some c' →
      c'.messages.length ≤ cfg.maxContextMessages := by
  apply runAdds_inv_bound
  exact h

/-- C6 amended witness: the bound instantiated on a concrete overflowing
sequence of one system and twelve user turns under maximum 10. -/
theorem addMessage_length_bound_witness :
    sysCountAdds (("system", "s") :: (List.range 12).map
        (fun i => ("user", toString i))) < specConfig.maxContextMessages ∧
    ∀ c', (runAdds specConfig 0 "u" emptyConvs
        (("system", "s") :: (List.range 12).map
          (fun i => ("user", toString i)))) "u" = some c' →
      c'.messages.length ≤ specConfig.maxContextMessages :=
  ⟨by decide,
    addMessage_length_bound specConfig 0 "u" _ (by decide)⟩

/-- C7 counterexample: a store holding 10 system turns under maximum 10;
adding a user turn overflows, and the result is not "all system turns
followed by the most recent `max - systemCount` (= 0) non-system turns"
(which would be the 10 system turns): the user turn is kept as an 11th
stored turn. -/
theorem addMessage_trim_formula_counterexample :
    ((addMessage specConfig 0
        (setConv emptyConvs "u"
          { messages := List.replicate 10 ⟨"system", "s"⟩,
            lastActivity := 0, messageCount := 10 })
        "u" "user" "hi") "u").map (fun c => c.messages)
      = some (List.replicate 10 (⟨"system", "s"⟩ : Msg) ++ [⟨"user", "hi"⟩]) ∧
    ((addMessage specConfig 0
        (setConv emptyConvs "u"
          { messages := List.replicate 10 ⟨"system", "s"⟩,
            lastActivity := 0, messageCount := 10 })
        "u" "user" "hi") "u").map (fun c => c.messages)
      ≠ some (List.replicate 10 (⟨"system", "s"⟩ : Msg)) := by
  constructor
  · decide
  · decide

/-- An overflowing `addTrim` with fewer stored system turns than the
maximum produces exactly the system turns followed by the most recent
`max - systemCount` non-system turns, in chronological order. -/
theorem addTrim_formula (cfg : Config) (msgs : List Msg)
    (hover : cfg.maxContextMessages < msgs.length)
    (hsys : sysLen msgs < cfg.maxContextMessages) :
    addTrim cfg msgs = (msgs.filter fun m => m.role == "system")
      ++ (msgs.filter fun m => !(m.role == "system")).rtake
           (cfg.maxContextMessages - sysLen msgs) := by
  unfold addTrim
  rw [if_pos (by omega)]
  dsimp only
  congr 1
  have hcast : -((cfg.maxContextMessages : Int)
        - (msgs.filter fun m => m.role == "system").length)
      = -((cfg.maxContextMessages - sysLen msgs : Nat) : Int) := by
    unfold sysLen at hsys ⊢
    omega
  rw [hcast, jsSlice_neg _ (by omega)]
  rfl

/-- C7 amended: whenever `addMessage` makes the stored count exceed the
maximum and the stored system turns (after the append) number fewer than
the maximum, the result is exactly all system turns followed by the most
recent `max - systemCount` non-system turns in chronological order, for
a total of exactly `max` turns; in particular the spec's boundary
scenario (`max = 10`, one system turn, eleventh non-system message)
stores exactly 10 turns: the system turn plus the 9 most recent user
turns.  (The restriction `systemCount < max` is forced by the
counterexample: with `systemCount ≥ max` the source keeps extra
non-system turns instead of none.) -/
theorem addMessage_trim_exact (cfg : Config) (now : Nat) (cs : Convs)
    (userId role content : String) (c : Conversation)
    (hc : cs userId = some c)
    (hover : cfg.maxContextMessages < (c.messages ++ [(⟨role, content⟩ : Msg)]).length)
    (hsys : sysLen (c.messages ++ [(⟨role, content⟩ : Msg)]) < cfg.maxContextMessages) :
    convMessages (addMessage cfg now cs userId role content) userId
      = some (((c.messages ++ [(⟨role, content⟩ : Msg)]).filter
            fun m => m.role == "system")
          ++ ((c.messages ++ [(⟨role, content⟩ : Msg)]).filter
                fun m => !(m.role == "system")).rtake
               (cfg.maxContextMessages
                 - sysLen (c.messages ++ [(⟨role, content⟩ : Msg)]))) ∧
    (((c.messages ++ [(⟨role, content⟩ : Msg)]).filter fun m => m.role == "system")
        ++ ((c.messages ++ [(⟨role, content⟩ : Msg)]).filter
              fun m => !(m.role == "system")).rtake
             (cfg.maxContextMessages
               - sysLen (c.messages ++ [(⟨role, content⟩ : Msg)]))).length
      = cfg.maxContextMessages ∧
    ((runAdds specConfig 0 "u" emptyConvs
        (("system", "s") :: (List.range 10).map
          (fun i => ("user", toString i)))) "u").map (fun d => d.messages)
      = some ((⟨"system", "s"⟩ : Msg) :: ((List.range 10).map
          (fun i => (⟨"user", toString i⟩ : Msg))).drop 1) := by
  refine ⟨?_, ?_, by decide⟩
  · unfold convMessages addMessage setConv
    rw [hc]
    simp only [Option.getD, if_pos]
    rw [addTrim_formula cfg _ hover hsys]
    simp
  · have hpart := filter_partition_length (fun m => m.role == "system")
      (c.messages ++ [(⟨role, content⟩ : Msg)])
    rw [List.length_append]
    unfold List.rtake
    rw [List.length_drop]
    unfold sysLen at *
    omega

/-- C7 amended witness: the exact-trim statement discharged at a
concrete store of one system and nine user turns overflowing to
eleven. -/
theorem addMessage_trim_exact_witness :
    specConfig.maxContextMessages
      < (((⟨"system", "s"⟩ : Msg) :: List.replicate 9 (⟨"user", "a"⟩ : Msg))
          ++ [(⟨"user", "x"⟩ : Msg)]).length ∧
    sysLen (((⟨"system", "s"⟩ : Msg) :: List.replicate 9 (⟨"user", "a"⟩ : Msg))
          ++ [(⟨"user", "x"⟩ : Msg)]) < specConfig.maxContextMessages ∧
    convMessages (addMessage specConfig 7
        (setConv emptyConvs "u"
          { messages := ⟨"system", "s"⟩ :: List.replicate 9 ⟨"user", "a"⟩,
            lastActivity := 0, messageCount := 10 })
        "u" "user" "x") "u"
      = some (((((⟨"system", "s"⟩ : Msg) :: List.replicate 9 (⟨"user", "a"⟩ : Msg))
            ++ [(⟨"user", "x"⟩ : Msg)]).filter fun m => m.role == "system")
          ++ ((((⟨"system", "s"⟩ : Msg) :: List.replicate 9 (⟨"user", "a"⟩ : Msg))
                ++ [(⟨"user", "x"⟩ : Msg)]).filter
                fun m => !(m.role == "system")).rtake
               (specConfig.maxContextMessages
                 - sysLen (((⟨"system", "s"⟩ : Msg)
                     :: List.replicate 9 (⟨"user", "a"⟩ : Msg))
                     ++ [(⟨"user", "x"⟩ : Msg)]))) :=
  ⟨by decide, by decide,
    ((addMessage_trim_exact specConfig 7
      (setConv emptyConvs "u"
        { messages := ⟨"system", "s"⟩ :: List.replicate 9 ⟨"user", "a"⟩,
          lastActivity := 0, messageCount := 10 })
      "u" "user" "x"
      { messages := ⟨"system", "s"⟩ :: List.replicate 9 ⟨"user", "a"⟩,
        lastActivity := 0, messageCount := 10 }
      rfl (by decide) (by decide)).1)⟩

/-! ## C10: token estimator determinism and monotonicity -/

theorem isPrefixOf_append_right (l : List Char) :
    ∀ (r t : List Char), l.isPrefixOf r = true → l.isPrefixOf (r ++ t) = true := by
  induction l with
  | nil => intro r t _; simp [List.isPrefixOf]
  | cons a l' ih =>
    intro r t h
    cases r with
    | nil => simp [List.isPrefixOf] at h
    | cons b r' =>
      simp only [List.isPrefixOf, List.cons_append, Bool.and_eq_true] at h ⊢
      exact ⟨h.1, ih r' t h.2⟩

/-- When a pattern has no occurrence in `s ++ t`, it has none in the
prefix `s` either (fueled form). -/
theorem countOccsF_prefix_zero (p : Char) (ps : List Char) :
    ∀ (s : List Char) (n m : Nat) (t : List Char), s.length ≤ m →
      (s ++ t).length ≤ n → countOccsF p ps n (s ++ t) = 0 →
      countOccsF p ps m s = 0
  | [], n, m, t, _, _, _ => by cases m <;> rfl
  | c :: rest, n, m, t, hm, hn, h0 => by
    cases n with
    | zero => simp at hn
    | succ n' =>
      cases m with
      | zero => simp at hm
      | succ m' =>
        rw [List.cons_append] at h0
        unfold countOccsF at h0
        split_ifs at h0 with hcond
        · omega
        · unfold countOccsF
          split_ifs with hcond2
          · exact absurd ⟨hcond2.1, isPrefixOf_append_right ps rest t hcond2.2⟩
              hcond
          · exact countOccsF_prefix_zero p ps rest n' m' t
              (by simp at hm; omega) (by simp at hn ⊢; omega) h0

/-- Removing a pattern that does not occur leaves the text unchanged
(fueled form). -/
theorem removeOccsF_eq_self (p : Char) (ps : List Char) :
    ∀ (s : List Char) (n : Nat), s.length ≤ n →
      countOccsF p ps n s = 0 → removeOccsF p ps n s = s
  | [], n, _, _ => by cases n <;> rfl
  | c :: rest, 0, hm, _ => by simp at hm
  | c :: rest, n' + 1, hm, h0 => by
    unfold countOccsF at h0
    split_ifs at h0 with hcond
    · omega
    · unfold removeOccsF
      rw [if_neg hcond]
      congr 1
      exact removeOccsF_eq_self p ps rest n' (by simp at hm; omega) h0

theorem removeOccs_eq_self (pat s : List Char) (h : countOccs pat s = 0) :
    removeOccs pat s = s := by
  cases pat with
  | nil => rfl
  | cons p ps =>
    unfold countOccs at h
    exact removeOccsF_eq_self p ps s s.length (Nat.le_refl _) h

theorem markerFree_of_append (s t : List Char) (h : markerFree (s ++ t)) :
    markerFree s := by
  intro pat hpat
  have h0 := h pat hpat
  cases pat with
  | nil => rfl
  | cons p ps =>
    unfold countOccs at h0 ⊢
    exact countOccsF_prefix_zero p ps s (s ++ t).length s.length t
      (Nat.le_refl _) (Nat.le_refl _) h0

/-- On marker-free text the estimator is exactly `Math.ceil(length/4)`. -/
theorem estimateTokens_markerFree (s : List Char) (h : markerFree s) :
    estimateTokens s = (s.length + 3) / 4 := by
  have h1 := h _ (show "<|begin_of_text|>".data ∈ specialTokens by
    simp [specialTokens])
  have h2 := h _ (show "<|start_header_id|>".data ∈ specialTokens by
    simp [specialTokens])
  have h3 := h _ (show "<|end_header_id|>".data ∈ specialTokens by
    simp [specialTokens])
  have h4 := h _ (show "<|eot_id|>".data ∈ specialTokens by
    simp [specialTokens])
  have h5 := h _ (show "system".data ∈ specialTokens by simp [specialTokens])
  have h6 := h _ (show "user".data ∈ specialTokens by simp [specialTokens])
  have h7 := h _ (show "assistant".data ∈ specialTokens by
    simp [specialTokens])
  unfold estimateTokens specialTokens
  simp only [List.map_cons, List.map_nil, List.sum_cons, List.sum_nil,
    List.foldl_cons, List.foldl_nil]
  rw [removeOccs_eq_self _ _ h1, removeOccs_eq_self _ _ h2,
    removeOccs_eq_self _ _ h3, removeOccs_eq_self _ _ h4,
    removeOccs_eq_self _ _ h5, removeOccs_eq_self _ _ h6,
    removeOccs_eq_self _ _ h7]
  unfold specialTokens at h1 h2 h3 h4 h5 h6 h7
  rw [h1, h2, h3, h4, h5, h6, h7]
  omega

/-- C10 counterexample: the estimator is not monotone in text length:
`"syste"` estimates to 2 tokens but appending `"m"` completes the
special marker `"system"`, which counts as a single token, dropping the
estimate to 1. -/
theorem estimateTokens_not_monotone :
    "system".data = "syste".data ++ "m".data ∧
    estimateTokens ("syste".data ++ "m".data) < estimateTokens "syste".data := by
  constructor
  · rfl
  · decide

/-- C10 amended: the estimator is deterministic (it is a pure function
of the text), and it is monotone under appending for texts in which no
special marker substring occurs; unrestricted monotonicity fails because
completing a marker collapses its characters to a single token. -/
theorem estimateTokens_deterministic_and_monotone (s t : List Char)
    (h : markerFree (s ++ t)) :
    (∀ u v : List Char, u = v → estimateTokens u = estimateTokens v) ∧
    estimateTokens s ≤ estimateTokens (s ++ t) := by
  refine ⟨fun u v huv => by rw [huv], ?_⟩
  rw [estimateTokens_markerFree s (markerFree_of_append s t h),
    estimateTokens_markerFree _ h, List.length_append]
  apply Nat.div_le_div_right
  omega

/-- C10 amended witness: the marker-free hypothesis discharged on a
concrete pair of texts. -/
theorem estimateTokens_deterministic_and_monotone_witness :
    markerFree ("ab".data ++ "cd".data) ∧
    ((∀ u v : List Char, u = v → estimateTokens u = estimateTokens v) ∧
      estimateTokens "ab".data ≤ estimateTokens ("ab".data ++ "cd".data)) :=
  ⟨by decide,
    estimateTokens_deterministic_and_monotone "ab".data "cd".data (by decide)⟩

/-! ## C1: per-message effects of the orchestrator -/

theorem checkGroqLimit_snd_groqRequests (cfg : Config) (now : Nat)
    (rs : RateState) :
    (checkGroqLimit cfg now rs).2.groqRequests
      = if now > rs.groqResetTime then 0 else rs.groqRequests := by
  unfold checkGroqLimit
  split_ifs <;> rfl

theorem getContext_fresh_messages (cfg : Config) (now : Nat) (cs : Convs)
    (userId : String) (hfresh : ConvFresh cfg now cs userId) :
    ∀ v, convMessages (getContext cfg now cs userId).2 v = convMessages cs v := by
  intro v
  unfold getContext
  cases hcu : cs userId with
  | none => rfl
  | some c =>
    dsimp only
    have hle := hfresh c hcu
    rw [if_neg (by omega)]
    unfold convMessages setConv
    by_cases hv : v = userId
    · subst hv
      rw [hcu]
      simp
    · simp [hv]

/-- On a rate-limited or terminally failed message, no stored message
list changes (the sender's conversation being absent or unexpired at the
context fetch). -/
theorem handleMessage_failure_no_store_mutation (cfg : Config) (clk : Clock)
    (st : BotState) (userId content : String) (promptRes : PromptLookup)
    (groqRes hfRes : Attempt)
    (hfresh : ConvFresh cfg clk.tCtx st.convs userId)
    (h : (handleMessage cfg clk st userId content promptRes groqRes hfRes).1
        = .rateLimited ∨
      (handleMessage cfg clk st userId content promptRes groqRes hfRes).1
        = .failed) :
    ∀ v, convMessages
        (handleMessage cfg clk st userId content promptRes groqRes hfRes).2.convs v
      = convMessages st.convs v := by
  unfold handleMessage getAIResponse at h ⊢
  dsimp only at h ⊢
  split_ifs at h ⊢ with hadm hcap
  · cases hmodel : st.currentModel <;> simp only [hmodel] at h ⊢ <;>
      cases groqRes <;> cases hfRes <;>
      first
        | (exact fun v =>
            getContext_fresh_messages cfg clk.tCtx st.convs userId hfresh v)
        | (rcases h with h | h <;> simp at h)
  · cases hmodel : st.currentModel <;> simp only [hmodel] at h ⊢ <;>
      cases groqRes <;> cases hfRes <;>
      first
        | (exact fun v =>
            getContext_fresh_messages cfg clk.tCtx st.convs userId hfresh v)
        | (rcases h with h | h <;> simp at h)
  · exact fun v => rfl

/-- On a successful message, the store after the turn is exactly the
store after the context fetch with the user turn and then the assistant
turn appended through `addMessage`. -/
theorem handleMessage_success_appends (cfg : Config) (clk : Clock)
    (st : BotState) (userId content : String) (promptRes : PromptLookup)
    (groqRes hfRes : Attempt) (c : String)
    (h : (handleMessage cfg clk st userId content promptRes groqRes hfRes).1
      = .replied c) :
    (handleMessage cfg clk st userId content promptRes groqRes hfRes).2.convs
      = addMessage cfg clk.tAddAssistant
          (addMessage cfg clk.tAddUser
            (getContext cfg clk.tCtx st.convs userId).2 userId "user" content)
          userId "assistant" c := by
  unfold handleMessage getAIResponse at h ⊢
  dsimp only at h ⊢
  split_ifs at h ⊢ with hadm hcap
  · cases hmodel : st.currentModel <;> simp only [hmodel] at h ⊢ <;>
      cases groqRes <;> cases hfRes <;> simp_all
  · cases hmodel : st.currentModel <;> simp only [hmodel] at h ⊢ <;>
      cases groqRes <;> cases hfRes <;> simp_all

/-- The per-user map after a message is exactly the result of the single
`checkUserLimit` application, whatever the provider attempts did. -/
theorem handleMessage_userLimits_once (cfg : Config) (clk : Clock)
    (st : BotState) (userId content : String) (promptRes : PromptLookup)
    (groqRes hfRes : Attempt) :
    (handleMessage cfg clk st userId content promptRes groqRes hfRes).2.rate.userLimits
      = (checkUserLimit cfg clk.tRate st.rate userId).2.userLimits := by
  unfold handleMessage getAIResponse
  dsimp only
  split_ifs with hadm hcap
  · cases hmodel : st.currentModel <;> simp only [hmodel] <;>
      cases groqRes <;> cases hfRes <;>
      simp [incrementGroq, checkGroqLimit_userLimits]
  · cases hmodel : st.currentModel <;> simp only [hmodel] <;>
      cases groqRes <;> cases hfRes <;>
      simp [incrementGroq, checkGroqLimit_userLimits]
  · rfl

/-- The global quota counter after a message is its lazily-reset value,
incremented exactly once only when the primary provider succeeded. -/
theorem handleMessage_quota_once (cfg : Config) (clk : Clock)
    (st : BotState) (userId content : String) (promptRes : PromptLookup)
    (groqRes hfRes : Attempt) :
    (handleMessage cfg clk st userId content promptRes groqRes hfRes).2.rate.groqRequests
        = quotaBase cfg clk st userId ∨
    ((handleMessage cfg clk st userId content promptRes groqRes hfRes).2.rate.groqRequests
        = quotaBase cfg clk st userId + 1 ∧
      st.currentModel = .groq ∧
      ∃ c, groqRes = .ok c ∧
        (handleMessage cfg clk st userId content promptRes groqRes hfRes).1
          = .replied c) := by
  have hreq := checkUserLimit_groqRequests cfg clk.tRate st.rate userId
  have hrst := checkUserLimit_groqResetTime cfg clk.tRate st.rate userId
  have hg := checkGroqLimit_snd_groqRequests cfg clk.tQuota
    (checkUserLimit cfg clk.tRate st.rate userId).2
  unfold handleMessage getAIResponse
  dsimp only
  split_ifs with hadm hcap
  · cases hmodel : st.currentModel
    · cases groqRes with
      | ok c =>
        right
        refine ⟨?_, rfl, c, rfl, rfl⟩
        show (incrementGroq (checkGroqLimit cfg clk.tQuota
          (checkUserLimit cfg clk.tRate st.rate userId).2).2).groqRequests
            = quotaBase cfg clk st userId + 1
        unfold incrementGroq quotaBase
        rw [hg, hreq, hrst]
        simp only [hadm, hmodel]
        split_ifs <;> simp_all
      | fail =>
        left
        cases hfRes <;>
          simp only [hmodel] <;>
          unfold quotaBase <;>
          rw [hg, hreq, hrst] <;>
          simp only [hadm, hmodel] <;>
          split_ifs <;> simp_all
    · cases groqRes <;> cases hfRes <;>
        simp only [hmodel] <;>
        left <;>
        unfold quotaBase <;>
        simp only [hadm, hmodel] <;>
        rw [hreq] <;>
        split_ifs <;> simp_all
  · cases hmodel : st.currentModel
    · cases groqRes <;> cases hfRes <;>
        simp only [hmodel] <;>
        left <;>
        unfold quotaBase <;>
        rw [hg, hreq, hrst] <;>
        simp only [hadm, hmodel] <;>
        split_ifs <;> simp_all
    · cases groqRes <;> cases hfRes <;>
        simp only [hmodel] <;>
        left <;>
        unfold quotaBase <;>
        simp only [hadm, hmodel] <;>
        rw [hreq] <;>
        split_ifs <;> simp_all
  · left
    unfold quotaBase
    rw [hreq]
    split_ifs <;> simp_all

/-- C1: for every inbound message (with the sender's conversation absent
or unexpired at the context fetch): (1) on a rate-limited or terminally
failed turn no stored message list is mutated; (2) on a successful turn
the store is mutated exactly by appending the user turn then the
assistant turn; (3) the per-user rate counter is the result of exactly
one `checkUserLimit` application regardless of how many provider
attempts occur; (4) the global quota counter is incremented at most
once, and only on a primary-provider success. -/
theorem handleMessage_turn_effects (cfg : Config) (clk : Clock)
    (st : BotState) (userId content : String) (promptRes : PromptLookup)
    (groqRes hfRes : Attempt)
    (hfresh : ConvFresh cfg clk.tCtx st.convs userId) :
    ((handleMessage cfg clk st userId content promptRes groqRes hfRes).1
          = .rateLimited ∨
      (handleMessage cfg clk st userId content promptRes groqRes hfRes).1
          = .failed →
      ∀ v, convMessages
          (handleMessage cfg clk st userId content promptRes groqRes hfRes).2.convs v
        = convMessages st.convs v) ∧
    (∀ c, (handleMessage cfg clk st userId content promptRes groqRes hfRes).1
        = .replied c →
      (handleMessage cfg clk st userId content promptRes groqRes hfRes).2.convs
        = addMessage cfg clk.tAddAssistant
            (addMessage cfg clk.tAddUser
              (getContext cfg clk.tCtx st.convs userId).2 userId "user" content)
            userId "assistant" c) ∧
    ((handleMessage cfg clk st userId content promptRes groqRes hfRes).2.rate.userLimits
      = (checkUserLimit cfg clk.tRate st.rate userId).2.userLimits) ∧
    ((handleMessage cfg clk st userId content promptRes groqRes hfRes).2.rate.groqRequests
        = quotaBase cfg clk st userId ∨
      ((handleMessage cfg clk st userId content promptRes groqRes hfRes).2.rate.groqRequests
          = quotaBase cfg clk st userId + 1 ∧
        st.currentModel = .groq ∧
        ∃ c, groqRes = .ok c ∧
          (handleMessage cfg clk st userId content promptRes groqRes hfRes).1
            = .replied c)) :=
  ⟨fun h => handleMessage_failure_no_store_mutation cfg clk st userId content
      promptRes groqRes hfRes hfresh h,
    fun c h => handleMessage_success_appends cfg clk st userId content
      promptRes groqRes hfRes c h,
    handleMessage_userLimits_once cfg clk st userId content promptRes
      groqRes hfRes,
    handleMessage_quota_once cfg clk st userId content promptRes groqRes hfRes⟩

/-- C1 witness: the freshness hypothesis discharged on the empty store,
with both providers failing. -/
theorem handleMessage_turn_effects_witness :
    ConvFresh specConfig 0 emptyConvs "u" ∧
    (((handleMessage specConfig ⟨0, 0, 0, 0, 0⟩ (initBotState .groq)
            "u" "hi" (.ok none) .fail .fail).1 = .rateLimited ∨
        (handleMessage specConfig ⟨0, 0, 0, 0, 0⟩ (initBotState .groq)
            "u" "hi" (.ok none) .fail .fail).1 = .failed →
        ∀ v, convMessages
            (handleMessage specConfig ⟨0, 0, 0, 0, 0⟩ (initBotState .groq)
              "u" "hi" (.ok none) .fail .fail).2.convs v
          = convMessages (initBotState .groq).convs v) ∧
      (∀ c, (handleMessage specConfig ⟨0, 0, 0, 0, 0⟩ (initBotState .groq)
            "u" "hi" (.ok none) .fail .fail).1 = .replied c →
        (handleMessage specConfig ⟨0, 0, 0, 0, 0⟩ (initBotState .groq)
            "u" "hi" (.ok none) .fail .fail).2.convs
          = addMessage specConfig 0
              (addMessage specConfig 0
                (getContext specConfig 0 (initBotState .groq).convs "u").2
                "u" "user" "hi")
              "u" "assistant" c) ∧
      ((handleMessage specConfig ⟨0, 0, 0, 0, 0⟩ (initBotState .groq)
            "u" "hi" (.ok none) .fail .fail).2.rate.userLimits
        = (checkUserLimit specConfig 0 (initBotState .groq).rate "u").2.userLimits) ∧
      ((handleMessage specConfig ⟨0, 0, 0, 0, 0⟩ (initBotState .groq)
            "u" "hi" (.ok none) .fail .fail).2.rate.groqRequests
          = quotaBase specConfig ⟨0, 0, 0, 0, 0⟩ (initBotState .groq) "u" ∨
        ((handleMessage specConfig ⟨0, 0, 0, 0, 0⟩ (initBotState .groq)
              "u" "hi" (.ok none) .fail .fail).2.rate.groqRequests
            = quotaBase specConfig ⟨0, 0, 0, 0, 0⟩ (initBotState .groq) "u" + 1 ∧
          (initBotState .groq).currentModel = .groq ∧
          ∃ c, Attempt.fail = Attempt.ok c ∧
            (handleMessage specConfig ⟨0, 0, 0, 0, 0⟩ (initBotState .groq)
                "u" "hi" (.ok none) .fail .fail).1 = .replied c))) :=
  ⟨fun _ hc => Option.noConfusion hc,
    handleMessage_turn_effects specConfig ⟨0, 0, 0, 0, 0⟩ (initBotState .groq)
      "u" "hi" (.ok none) .fail .fail (fun _ hc => Option.noConfusion hc)⟩

end AiBot
